import Mathlib

/-!
The ILLIXR runtime: plugin lifecycle manager.

A shallow embedding of `src/runtime/runtime_impl.hpp` (class `runtime_impl`) and of the
controller entry points of `src/runtime/main.cpp`, with the lifecycle properties of the
specification stated over it.

Conventions of the embedding.

* A C++ member function that mutates the object becomes a function from the state before
  the call to the state after it.  A call that can throw returns an `Outcome`: the state
  as it stands when the call returns or when the exception leaves it, together with the
  exception, if any.
* The calls made on collaborators (`dynamic_lib::create`, `dynamic_lib::get`, the plugin
  factory, `plugin::start`, `plugin::stop`, `switchboard::stop`, the store to `terminate`)
  are recorded, in program order, in the ghost field `trace`.
* Object identity (which `dynamic_lib`, which `plugin` instance) is a number drawn from a
  ghost counter when the object is created.
* The headers `common/dynamic_lib.hpp`, `common/plugin.hpp` and `common/phonebook.hpp` are
  not embedded.  Whether a path opens, whether an image exports a symbol and whether a
  factory returns an instance are parameters (`Env`, `plugin_factory.builds`); a failure of
  one of them is an exception that leaves the member function.  `plugin::start`,
  `plugin::stop` and `switchboard::stop` are calls that return.  The destructor of a plugin
  instance follows the specification: it aborts when the instance never received `stop()`.
* `assert(errno == 0)` at the head of the batch `load_so` is the precondition of that call
  on the ambient `errno`, which is not part of the object; `RAC_ERRNO_MSG` reports and
  clears `errno` and touches nothing of the object.  Neither appears in the state.
-/

namespace ILLIXR

/-! ## Data model -/

/-- An opened code image (`dynamic_lib`): `handle` identifies the object, `path` is the path
it was opened from. -/
structure dynamic_lib where
  handle : Nat
  path : String
deriving DecidableEq, Repr

/-- A `plugin_factory`, i.e. a `plugin* (*)(phonebook*)`.  `origin` is the image the function
was resolved from (`none` for a function linked into the process), `symbol` its name and
`builds` tells whether a call returns an instance (`true`) or throws (`false`). -/
structure plugin_factory where
  origin : Option dynamic_lib
  symbol : String
  builds : Bool
deriving DecidableEq, Repr

/-- A plugin instance: `id` identifies the object, `factory` is the factory that made it. -/
structure plugin where
  id : Nat
  factory : plugin_factory
deriving DecidableEq, Repr

/-- A `phonebook` (service registry), as the list of the capability keys registered in it. -/
abbrev phonebook := List String

/-- The calls made on collaborators, as recorded in the trace.  `construct f pb` is the call
`f(pb)` of a factory with the registry handle `pb` (`none` is the null pointer). -/
inductive Event where
  | dlopen (path : String)
  | dlsym (lib : dynamic_lib) (symbol : String)
  | construct (f : plugin_factory) (pb : Option phonebook)
  | start (p : plugin)
  | stop (p : plugin)
  | switchboard_stop
  | terminate_store
deriving DecidableEq, Repr

/-- The exceptions of the loading path. -/
inductive Exn where
  | load_error (path : String)
  | symbol_error (path : String) (symbol : String)
  | construct_error (f : plugin_factory)
deriving DecidableEq, Repr

/-- What the file system and the loaded code do: `loadable path` tells whether the path opens
as a code image, `exports path symbol` whether that image exports the symbol, and
`builds path` whether the factory exported by that image returns an instance. -/
structure Env where
  loadable : String → Bool
  exports : String → String → Bool
  builds : String → Bool

/-- The state a call leaves behind, and the exception it threw, if any. -/
structure Outcome (σ : Type) where
  rt : σ
  thrown : Option Exn

/-- Modelled from the spec: `dynamic_lib::create` of common/dynamic_lib.hpp, which is not
among the sources.  "Opens the native code unit at `path`.  Fails with a load error if the
path does not resolve to valid loadable code." -/
def dynamic_lib.create (env : Env) (handle : Nat) (path : String) : Except Exn dynamic_lib :=
  if env.loadable path then .ok ⟨handle, path⟩ else .error (.load_error path)

/-- Modelled from the spec: `dynamic_lib::get` of common/dynamic_lib.hpp, which is not among
the sources.  "Looks up a single well-known exported symbol and returns it as a callable
producing a plugin instance given a Service Registry handle.  Fails if the symbol is
absent." -/
def dynamic_lib.get (env : Env) (lib : dynamic_lib) (symbol : String) :
    Except Exn plugin_factory :=
  if env.exports lib.path symbol then .ok ⟨some lib, symbol, env.builds lib.path⟩
  else .error (.symbol_error lib.path symbol)

/-- A call of a factory: a new plugin instance, or the exception of its constructor. -/
def plugin_factory.call (f : plugin_factory) (id : Nat) : Except Exn plugin :=
  if f.builds then .ok ⟨id, f⟩ else .error (.construct_error f)

/-! ## `runtime_impl` -/

/-- The members of `runtime_impl` (`libs`, `plugins`, `terminate`), the ghost trace and the
ghost counters.  The member `pb` is filled by the constructor and never modified
afterwards; it is the constant `runtime_impl.pb`. -/
structure runtime_impl where
  libs : List dynamic_lib
  plugins : List plugin
  terminate : Bool
  trace : List Event
  next_handle : Nat
  next_id : Nat
deriving DecidableEq, Repr

namespace runtime_impl

/-- The registry of a `runtime_impl`, as left by its constructor. -/
def pb : phonebook :=
  ["record_logger", "gen_guid", "switchboard", "xlib_gl_extended_window"]

/-- The state after `runtime_impl(GLXContext)`: no image, no plugin, `terminate {false}`. -/
def init : runtime_impl :=
  { libs := [], plugins := [], terminate := false, trace := [], next_handle := 0, next_id := 0 }

/-- First `std::transform` of the batch `load_so`: one `dynamic_lib::create` per path, each
image appended to `libs` as soon as it is opened. -/
def load_libs (env : Env) : List String → runtime_impl → Outcome runtime_impl
  | [], s => ⟨s, none⟩
  | so_path :: rest, s =>
    match dynamic_lib.create env s.next_handle so_path with
    | .error e => ⟨{ s with trace := s.trace ++ [.dlopen so_path] }, some e⟩
    | .ok lib =>
      load_libs env rest
        { s with trace := s.trace ++ [.dlopen so_path], libs := s.libs ++ [lib],
                 next_handle := s.next_handle + 1 }

/-- Second `std::transform` of the batch `load_so`: `get("this_plugin_factory")` on every
element of the range it is given, the results collected in the local `plugin_factories`. -/
def get_factories (env : Env) :
    List dynamic_lib → runtime_impl → Outcome runtime_impl × List plugin_factory
  | [], s => (⟨s, none⟩, [])
  | lib :: rest, s =>
    match dynamic_lib.get env lib "this_plugin_factory" with
    | .error e => (⟨{ s with trace := s.trace ++ [.dlsym lib "this_plugin_factory"] }, some e⟩, [])
    | .ok f =>
      let r := get_factories env rest
        { s with trace := s.trace ++ [.dlsym lib "this_plugin_factory"] }
      (r.1, f :: r.2)

/-- Third `std::transform` of the batch `load_so`: one call `plugin_factory(&pb)` per
factory, each instance appended to `plugins` as soon as it is built. -/
def build_plugins : List plugin_factory → runtime_impl → Outcome runtime_impl
  | [], s => ⟨s, none⟩
  | f :: rest, s =>
    match f.call s.next_id with
    | .error e => ⟨{ s with trace := s.trace ++ [.construct f (some pb)] }, some e⟩
    | .ok p =>
      build_plugins rest
        { s with trace := s.trace ++ [.construct f (some pb)], plugins := s.plugins ++ [p],
                 next_id := s.next_id + 1 }

/-- The `std::for_each` of the batch `load_so`: `start()` on every element of `plugins`. -/
def start_plugins (s : runtime_impl) : runtime_impl :=
  { s with trace := s.trace ++ s.plugins.map Event.start }

/-- The batch form `load_so(const std::vector<std::string>&)`.  The second transform ranges
over `libs.cbegin() .. libs.cend()` and the `for_each` over
`plugins.cbegin() .. plugins.cend()`, that is over the whole members. -/
def load_so (env : Env) (s : runtime_impl) (so_paths : List String) : Outcome runtime_impl :=
  match load_libs env so_paths s with
  | ⟨s1, some e⟩ => ⟨s1, some e⟩
  | ⟨s1, none⟩ =>
    match get_factories env s1.libs s1 with
    | (⟨s2, some e⟩, _) => ⟨s2, some e⟩
    | (⟨s2, none⟩, plugin_factories) =>
      match build_plugins plugin_factories s2 with
      | ⟨s3, some e⟩ => ⟨s3, some e⟩
      | ⟨s3, none⟩ => ⟨start_plugins s3, none⟩

/-- The member `load_plugin_factory(plugin_factory)`: `plugins.emplace_back(plugin_main(&pb))`
then `plugins.back()->start()`. -/
def load_plugin_factory (s : runtime_impl) (plugin_main : plugin_factory) :
    Outcome runtime_impl :=
  match plugin_main.call s.next_id with
  | .error e => ⟨{ s with trace := s.trace ++ [.construct plugin_main (some pb)] }, some e⟩
  | .ok p =>
    ⟨{ s with trace := s.trace ++ [.construct plugin_main (some pb)] ++ [.start p],
              plugins := s.plugins ++ [p], next_id := s.next_id + 1 }, none⟩

/-- The single-path form `load_so(const std::string_view)`: create the image, resolve
`this_plugin_factory`, `load_plugin_factory`, then `libs.push_back(std::move(lib))`. -/
def load_so_view (env : Env) (s : runtime_impl) (so : String) : Outcome runtime_impl :=
  match dynamic_lib.create env s.next_handle so with
  | .error e => ⟨{ s with trace := s.trace ++ [.dlopen so] }, some e⟩
  | .ok lib =>
    match dynamic_lib.get env lib "this_plugin_factory" with
    | .error e =>
      ⟨{ s with trace := s.trace ++ [.dlopen so] ++ [.dlsym lib "this_plugin_factory"],
                next_handle := s.next_handle + 1 }, some e⟩
    | .ok this_plugin_factory =>
      match load_plugin_factory
          { s with trace := s.trace ++ [.dlopen so] ++ [.dlsym lib "this_plugin_factory"],
                   next_handle := s.next_handle + 1 } this_plugin_factory with
      | ⟨s1, some e⟩ => ⟨s1, some e⟩
      | ⟨s1, none⟩ => ⟨{ s1 with libs := s1.libs ++ [lib] }, none⟩

/-- The member `wait()`: `while (!terminate.load()) sleep_for(10ms)`, with a bound on the
number of polls.  `none` when the flag is still clear after `polls` polls (nothing in a
sequential run sets it meanwhile). -/
def wait : Nat → runtime_impl → Option runtime_impl
  | 0, _ => none
  | polls + 1, s => if !s.terminate then wait polls s else some s

/-- The member `stop()`: `switchboard::stop()` on the switchboard looked up in `pb` (the
constructor registered it), then `stop()` on every element of `plugins` in order, then
`terminate.store(true)`. -/
def stop (s : runtime_impl) : runtime_impl :=
  { s with
    trace := s.trace ++ [.switchboard_stop] ++ s.plugins.map Event.stop ++ [.terminate_store],
    terminate := true }

/-- How a destructor ends. -/
inductive Exit where
  | normal
  | abort
deriving DecidableEq, Repr

/-- The body of `~runtime_impl()`: `if (!terminate.load()) ILLIXR::abort(...)`, and nothing
else (the `errno` assertion is commented out).  The destructors of the members run after
the body; see `runtime_impl.destruction`. -/
def destructor (s : runtime_impl) : Exit :=
  if !s.terminate then .abort else .normal

end runtime_impl

/-! ## Sequences of calls on a `runtime_impl` -/

/-- A call made on a `runtime_impl` by the embedding process.  A factory handed to
`load_plugin_factory` from outside is a function of the process itself (`origin := none`). -/
inductive Op where
  | load_so (so_paths : List String)
  | load_so_view (so : String)
  | load_plugin_factory (symbol : String) (builds : Bool)
  | wait (polls : Nat)
  | stop
deriving DecidableEq, Repr

/-- The effect of one call.  A `wait` that does not return leaves the object as it is. -/
def Op.apply (env : Env) (s : runtime_impl) : Op → Outcome runtime_impl
  | .load_so so_paths => runtime_impl.load_so env s so_paths
  | .load_so_view so => runtime_impl.load_so_view env s so
  | .load_plugin_factory symbol builds =>
    runtime_impl.load_plugin_factory s ⟨none, symbol, builds⟩
  | .wait polls => ⟨(runtime_impl.wait polls s).getD s, none⟩
  | .stop => ⟨runtime_impl.stop s, none⟩

/-- The state after a sequence of calls.  A call that throws leaves the object in the state
reached at the throw and the caller goes on with the next call.  A `wait` that blocks holds
only the thread that called it: the calls that follow are made by other threads. -/
def run (env : Env) (s : runtime_impl) (ops : List Op) : runtime_impl :=
  ops.foldl (fun t op => (op.apply env t).rt) s

/-- Whether every call of the sequence returns without throwing. -/
def all_succeed (env : Env) : runtime_impl → List Op → Bool
  | _, [] => true
  | s, op :: rest => (op.apply env s).thrown.isNone && all_succeed env (op.apply env s).rt rest

/-- Whether the event is a `start()` of some plugin. -/
def Event.is_start : Event → Bool
  | .start _ => true
  | _ => false

/-- Whether the event is one of the three steps that precede `start()` when loading:
opening an image, resolving a symbol, calling a factory. -/
def Event.is_load_step : Event → Bool
  | .dlopen _ => true
  | .dlsym _ _ => true
  | .construct _ _ => true
  | _ => false

/-- How many times `start()` was called on `p` in a trace. -/
def start_count (p : plugin) (t : List Event) : Nat := t.count (.start p)

/-- How many times `stop()` was called on `p` in a trace. -/
def stop_count (p : plugin) (t : List Event) : Nat := t.count (.stop p)

/-! ## Destruction of a `runtime_impl` -/

/-- Modelled from the spec: the destructor of a plugin instance, of common/plugin.hpp, which
is not embedded.  "Destroying a plugin instance after `stop()` was called on it completes
normally; destroying one for which `stop()` was never called aborts the process."  The
trace tells how many `stop()` calls the instance has received. -/
def plugin.destructor (p : plugin) (t : List Event) : runtime_impl.Exit :=
  if stop_count p t = 0 then .abort else .normal

/-- The destructor of the member `plugins`, a `std::vector<std::unique_ptr<plugin>>`: every
held instance is destroyed, and the process is gone at the first abort. -/
def destroy_plugins : List plugin → List Event → runtime_impl.Exit
  | [], _ => .normal
  | p :: rest, t =>
    match p.destructor t with
    | .abort => .abort
    | .normal => destroy_plugins rest t

/-- The destruction of a `runtime_impl`: the body of `~runtime_impl()`, then the
destructors of the members in reverse order of declaration (`terminate`, `plugins`, `pb`,
`libs`), of which that of `plugins` destroys the held instances. -/
def runtime_impl.destruction (s : runtime_impl) : runtime_impl.Exit :=
  match s.destructor with
  | .abort => .abort
  | .normal => destroy_plugins s.plugins s.trace

/-! ## Invariant of the reachable states -/

/-- The instances held are distinct objects whose identifiers have been drawn from the
counter, and each one made by a factory resolved from an image has that image in `libs`. -/
def wf (s : runtime_impl) : Prop :=
  (∀ p ∈ s.plugins, p.id < s.next_id) ∧ s.plugins.Nodup ∧
  (∀ p ∈ s.plugins, ∀ l, p.factory.origin = some l → l ∈ s.libs)

/-! ## The controller entry points of `main.cpp` -/

/-- The globals of `main.cpp` (`pb`, `libs`, `plugins`), the ghost trace and the ghost
counters.  `pb` is `none` while the `std::unique_ptr<phonebook>` is empty. -/
structure main_state where
  pb : Option phonebook
  libs : List dynamic_lib
  plugins : List plugin
  trace : List Event
  next_handle : Nat
  next_id : Nat
deriving DecidableEq, Repr

namespace main_state

/-- The globals at program start. -/
def init : main_state :=
  { pb := none, libs := [], plugins := [], trace := [], next_handle := 0, next_id := 0 }

end main_state

/-- The entry point `illixrrt_init`: a new phonebook with the switchboard and the window
registered in it; returns 0. -/
def illixrrt_init (s : main_state) : main_state × Int :=
  ({ s with pb := some ["switchboard", "xlib_gl_extended_window"] }, 0)

/-- The entry point `illixrrt_load_plugin`: create the image, call its `plugin_main` with
`pb.get()`, `plugins.emplace_back(p)`, `libs.push_back(std::move(lib))`. -/
def illixrrt_load_plugin (env : Env) (s : main_state) (path : String) : Outcome main_state :=
  match dynamic_lib.create env s.next_handle path with
  | .error e => ⟨{ s with trace := s.trace ++ [.dlopen path] }, some e⟩
  | .ok lib =>
    match dynamic_lib.get env lib "plugin_main" with
    | .error e =>
      ⟨{ s with trace := s.trace ++ [.dlopen path] ++ [.dlsym lib "plugin_main"],
                next_handle := s.next_handle + 1 }, some e⟩
    | .ok f =>
      match f.call s.next_id with
      | .error e =>
        ⟨{ s with trace := s.trace ++ [.dlopen path] ++ [.dlsym lib "plugin_main"]
                    ++ [.construct f s.pb],
                  next_handle := s.next_handle + 1 }, some e⟩
      | .ok p =>
        ⟨{ s with trace := s.trace ++ [.dlopen path] ++ [.dlsym lib "plugin_main"]
                    ++ [.construct f s.pb],
                  plugins := s.plugins ++ [p], libs := s.libs ++ [lib],
                  next_handle := s.next_handle + 1, next_id := s.next_id + 1 }, none⟩

/-- The entry point `illixrrt_attach_plugin`: `p = f(pb.get())`, `plugins.emplace_back(p)`. -/
def illixrrt_attach_plugin (s : main_state) (f : plugin_factory) : Outcome main_state :=
  match f.call s.next_id with
  | .error e => ⟨{ s with trace := s.trace ++ [.construct f s.pb] }, some e⟩
  | .ok p =>
    ⟨{ s with trace := s.trace ++ [.construct f s.pb], plugins := s.plugins ++ [p],
              next_id := s.next_id + 1 }, none⟩

/-! ## Example environment -/

/-- An environment in which every path opens, exports every symbol and builds. -/
def env_ok : Env := { loadable := fun _ => true, exports := fun _ _ => true, builds := fun _ => true }

/-- An environment in which only `"a.so"` opens. -/
def env_a : Env :=
  { loadable := fun p => p == "a.so", exports := fun _ _ => true, builds := fun _ => true }

open runtime_impl

/-! ## The steps of the batch `load_so` -/

/-- What the first transform leaves behind: only `libs`, the trace and the handle counter
move; the trace grows by `dlopen` events; the call throws exactly when some path does not
open, and then with the load error of such a path. -/
theorem load_libs_spec (env : Env) (ps : List String) (s : runtime_impl) :
    (load_libs env ps s).rt.plugins = s.plugins ∧
    (load_libs env ps s).rt.terminate = s.terminate ∧
    (load_libs env ps s).rt.next_id = s.next_id ∧
    (∃ new, (load_libs env ps s).rt.libs = s.libs ++ new ∧
      ((load_libs env ps s).thrown = none → new.map dynamic_lib.path = ps)) ∧
    (∃ ev, (load_libs env ps s).rt.trace = s.trace ++ ev ∧ (∀ e ∈ ev, ∃ p, e = Event.dlopen p) ∧
      ((load_libs env ps s).thrown = none → ev = ps.map Event.dlopen)) ∧
    ((load_libs env ps s).thrown = none → ∀ p ∈ ps, env.loadable p = true) ∧
    ((load_libs env ps s).thrown ≠ none →
      ∃ p ∈ ps, env.loadable p = false ∧ (load_libs env ps s).thrown = some (.load_error p)) := by
  induction ps generalizing s with
  | nil => simp [load_libs]
  | cons p ps ih =>
    cases hp : env.loadable p with
    | false =>
      simp only [load_libs, dynamic_lib.create, hp]
      refine ⟨rfl, rfl, rfl, ⟨[], by simp⟩, ⟨[.dlopen p], rfl, by simp, by simp⟩, by simp, ?_⟩
      intro _
      exact ⟨p, by simp, hp, rfl⟩
    | true =>
      simp only [load_libs, dynamic_lib.create, hp, if_true]
      obtain ⟨h1, h2, h3, ⟨new, h4, h4'⟩, ⟨ev, h5, h5', h5e⟩, h6, h7⟩ :=
        ih { s with trace := s.trace ++ [.dlopen p],
                    libs := s.libs ++ [⟨s.next_handle, p⟩],
                    next_handle := s.next_handle + 1 }
      refine ⟨h1, h2, h3, ⟨⟨s.next_handle, p⟩ :: new, by simpa using h4, ?_⟩,
        ⟨.dlopen p :: ev, by simpa using h5, ?_, ?_⟩, ?_, ?_⟩
      · intro h
        simp [h4' h]
      · intro e he
        rcases List.mem_cons.mp he with rfl | he
        · exact ⟨p, rfl⟩
        · exact h5' e he
      · intro h
        simp [h5e h]
      · intro h q hq
        rcases List.mem_cons.mp hq with rfl | hq
        · exact hp
        · exact h6 h q hq
      · intro h
        obtain ⟨q, hq, hq1, hq2⟩ := h7 h
        exact ⟨q, List.mem_cons_of_mem _ hq, hq1, hq2⟩

/-- What the second transform leaves behind: only the trace moves, by `dlsym` events; on
return the local vector holds one factory per image of the range, in order; the call throws
exactly when some image of the range does not export the symbol. -/
theorem get_factories_spec (env : Env) (ls : List dynamic_lib) (s : runtime_impl) :
    (get_factories env ls s).1.rt.libs = s.libs ∧
    (get_factories env ls s).1.rt.plugins = s.plugins ∧
    (get_factories env ls s).1.rt.terminate = s.terminate ∧
    (get_factories env ls s).1.rt.next_id = s.next_id ∧
    (∃ ev, (get_factories env ls s).1.rt.trace = s.trace ++ ev ∧
      (∀ e ∈ ev, ∃ l sym, e = Event.dlsym l sym) ∧
      ((get_factories env ls s).1.thrown = none →
        ev = ls.map (fun l => Event.dlsym l "this_plugin_factory"))) ∧
    ((get_factories env ls s).1.thrown = none →
      (get_factories env ls s).2
          = ls.map (fun l => ⟨some l, "this_plugin_factory", env.builds l.path⟩) ∧
        ∀ l ∈ ls, env.exports l.path "this_plugin_factory" = true) ∧
    ((get_factories env ls s).1.thrown ≠ none →
      ∃ l ∈ ls, env.exports l.path "this_plugin_factory" = false) := by
  induction ls generalizing s with
  | nil => simp [get_factories]
  | cons l ls ih =>
    cases hl : env.exports l.path "this_plugin_factory" with
    | false =>
      simp only [get_factories, dynamic_lib.get, hl]
      refine ⟨rfl, rfl, rfl, rfl, ⟨[.dlsym l "this_plugin_factory"], rfl, by simp, by simp⟩,
        by simp, ?_⟩
      intro _
      exact ⟨l, by simp, hl⟩
    | true =>
      simp only [get_factories, dynamic_lib.get, hl, if_true]
      obtain ⟨h1, h2, h3, h4, ⟨ev, h5, h5', h5e⟩, h6, h7⟩ :=
        ih { s with trace := s.trace ++ [.dlsym l "this_plugin_factory"] }
      refine ⟨h1, h2, h3, h4, ⟨.dlsym l "this_plugin_factory" :: ev, by simpa using h5, ?_, ?_⟩,
        ?_, ?_⟩
      · intro e he
        rcases List.mem_cons.mp he with rfl | he
        · exact ⟨l, _, rfl⟩
        · exact h5' e he
      · intro h
        simp [h5e h]
      · intro h
        obtain ⟨h6a, h6b⟩ := h6 h
        refine ⟨by simp [h6a], ?_⟩
        intro q hq
        rcases List.mem_cons.mp hq with rfl | hq
        · exact hl
        · exact h6b q hq
      · intro h
        obtain ⟨q, hq, hq1⟩ := h7 h
        exact ⟨q, List.mem_cons_of_mem _ hq, hq1⟩

/-- What the third transform leaves behind: only `plugins`, the trace and the instance
counter move; the new instances are appended, each made by a factory of the range and with
an identifier not used before; the trace grows by `construct` events; the call throws
exactly when some factory of the range does not build. -/
theorem build_plugins_spec (fs : List plugin_factory) (s : runtime_impl) :
    (build_plugins fs s).rt.libs = s.libs ∧
    (build_plugins fs s).rt.terminate = s.terminate ∧
    s.next_id ≤ (build_plugins fs s).rt.next_id ∧
    (∃ new, (build_plugins fs s).rt.plugins = s.plugins ++ new ∧
      (∀ p ∈ new, p.factory ∈ fs ∧ s.next_id ≤ p.id ∧ p.id < (build_plugins fs s).rt.next_id) ∧
      new.Nodup ∧
      ((build_plugins fs s).thrown = none → new.map plugin.factory = fs)) ∧
    (∃ ev, (build_plugins fs s).rt.trace = s.trace ++ ev ∧
      (∀ e ∈ ev, ∃ f pb, e = Event.construct f pb) ∧
      ((build_plugins fs s).thrown = none →
        ev = fs.map (fun f => Event.construct f (some pb)))) ∧
    ((build_plugins fs s).thrown = none → ∀ f ∈ fs, f.builds = true) ∧
    ((build_plugins fs s).thrown ≠ none → ∃ f ∈ fs, f.builds = false) := by
  induction fs generalizing s with
  | nil => simp [build_plugins]
  | cons f fs ih =>
    cases hf : f.builds with
    | false =>
      simp only [build_plugins, plugin_factory.call, hf]
      refine ⟨rfl, rfl, le_refl _, ⟨[], by simp⟩,
        ⟨[.construct f (some pb)], rfl, by simp, by simp⟩, by simp, ?_⟩
      intro _
      exact ⟨f, by simp, hf⟩
    | true =>
      simp only [build_plugins, plugin_factory.call, hf, if_true]
      obtain ⟨h1, h2, h3, ⟨new, h4, h4a, h4b, h4c⟩, ⟨ev, h5, h5', h5e⟩, h6, h7⟩ :=
        ih { s with trace := s.trace ++ [.construct f (some pb)],
                    plugins := s.plugins ++ [⟨s.next_id, f⟩],
                    next_id := s.next_id + 1 }
      simp only at h3 h4a
      refine ⟨h1, h2, by omega, ⟨⟨s.next_id, f⟩ :: new, by simpa using h4, ?_, ?_, ?_⟩,
        ⟨.construct f (some pb) :: ev, by simpa using h5, ?_, ?_⟩, ?_, ?_⟩
      · intro p hp
        rcases List.mem_cons.mp hp with rfl | hp
        · exact ⟨by simp, le_refl _, by simp only; omega⟩
        · obtain ⟨a, b, c⟩ := h4a p hp
          exact ⟨List.mem_cons_of_mem _ a, by omega, c⟩
      · refine List.nodup_cons.mpr ⟨?_, h4b⟩
        intro hmem
        have := (h4a _ hmem).2.1
        simp at this
      · intro h
        simp [h4c h]
      · intro e he
        rcases List.mem_cons.mp he with rfl | he
        · exact ⟨f, _, rfl⟩
        · exact h5' e he
      · intro h
        simp [h5e h]
      · intro h q hq
        rcases List.mem_cons.mp hq with rfl | hq
        · exact hf
        · exact h6 h q hq
      · intro h
        obtain ⟨q, hq, hq1⟩ := h7 h
        exact ⟨q, List.mem_cons_of_mem _ hq, hq1⟩

/-- The batch `load_so`, frame and shape of its effects: the flag does not move, `libs` and
`plugins` only grow at the end, the new instances are distinct, carry fresh identifiers and
come from images held in `libs`, and the trace grows by load steps followed by the
`start()` calls, which are those of the final `for_each` and missing if the call throws. -/
theorem load_so_frame (env : Env) (s : runtime_impl) (ps : List String) :
    (load_so env s ps).rt.terminate = s.terminate ∧
    (∃ newl, (load_so env s ps).rt.libs = s.libs ++ newl) ∧
    s.next_id ≤ (load_so env s ps).rt.next_id ∧
    (∃ newp, (load_so env s ps).rt.plugins = s.plugins ++ newp ∧ newp.Nodup ∧
      ∀ p ∈ newp, s.next_id ≤ p.id ∧ p.id < (load_so env s ps).rt.next_id ∧
        ∃ l ∈ (load_so env s ps).rt.libs, p.factory.origin = some l) ∧
    (∃ pre starts, (load_so env s ps).rt.trace = s.trace ++ pre ++ starts ∧
      (∀ e ∈ pre, e.is_load_step = true) ∧
      (((load_so env s ps).thrown ≠ none ∧ starts = []) ∨
        ((load_so env s ps).thrown = none ∧
          starts = (load_so env s ps).rt.plugins.map Event.start ∧
          pre = ps.map Event.dlopen ++
            (load_so env s ps).rt.libs.map (fun l => Event.dlsym l "this_plugin_factory") ++
            (load_so env s ps).rt.libs.map (fun l =>
              Event.construct ⟨some l, "this_plugin_factory", env.builds l.path⟩ (some pb))))) := by
  obtain ⟨a1, a2, a3, ⟨newl, a4, -⟩, ⟨ev1, a5, a5', a5e⟩, -, -⟩ := load_libs_spec env ps s
  have a5'' : ∀ e ∈ ev1, e.is_load_step = true := by
    intro e he; obtain ⟨p, rfl⟩ := a5' e he; rfl
  unfold load_so
  rcases hA : load_libs env ps s with ⟨s1, _ | e⟩
  · rw [hA] at a1 a2 a3 a4 a5 a5e
    simp only at a1 a2 a3 a4 a5 a5e ⊢
    obtain ⟨b1, b2, b3, b4, ⟨ev2, b5, b5', b5e⟩, b6, -⟩ := get_factories_spec env s1.libs s1
    have b5'' : ∀ e ∈ ev2, e.is_load_step = true := by
      intro e he; obtain ⟨l, sym, rfl⟩ := b5' e he; rfl
    rcases hB : get_factories env s1.libs s1 with ⟨⟨s2, _ | e⟩, fs⟩
    · rw [hB] at b1 b2 b3 b4 b5 b5e b6
      simp only at b1 b2 b3 b4 b5 b5e b6 ⊢
      obtain ⟨b6a, -⟩ := b6 trivial
      obtain ⟨c1, c2, c3, ⟨newp, c4, c4a, c4b, -⟩, ⟨ev3, c5, c5', c5e⟩, -, -⟩ :=
        build_plugins_spec fs s2
      have c5'' : ∀ e ∈ ev3, e.is_load_step = true := by
        intro e he; obtain ⟨f, pb, rfl⟩ := c5' e he; rfl
      have hpre : ∀ e ∈ ev1 ++ ev2 ++ ev3, e.is_load_step = true := by
        intro e he
        simp only [List.mem_append] at he
        rcases he with (he | he) | he
        · exact a5'' e he
        · exact b5'' e he
        · exact c5'' e he
      have horigin : ∀ p ∈ newp, ∃ l ∈ s.libs ++ newl, p.factory.origin = some l := by
        intro p hp
        have hf := (c4a p hp).1
        rw [b6a] at hf
        obtain ⟨l, hl, hlf⟩ := List.mem_map.mp hf
        exact ⟨l, by rw [← a4]; exact hl, by rw [← hlf]⟩
      rcases hC : build_plugins fs s2 with ⟨s3, _ | e⟩
      · rw [hC] at c1 c2 c3 c4 c4a c5 c5e
        simp only at c1 c2 c3 c4 c4a c5 c5e ⊢
        simp only [start_plugins]
        refine ⟨by rw [c2, b3, a2], ⟨newl, by rw [c1, b1, a4]⟩, by omega,
          ⟨newp, by rw [c4, b2, a1], c4b, ?_⟩,
          ⟨ev1 ++ ev2 ++ ev3, _, ?_, hpre, Or.inr ⟨trivial, rfl, ?_⟩⟩⟩
        · intro p hp
          obtain ⟨-, x, y⟩ := c4a p hp
          refine ⟨by omega, y, ?_⟩
          rw [c1, b1, a4]
          exact horigin p hp
        · rw [c5, b5, a5]; simp
        · rw [a5e trivial, b5e trivial, c5e trivial, b6a, c1, b1]
          simp [List.map_map, Function.comp_def]
      · rw [hC] at c1 c2 c3 c4 c4a c5
        simp only at c1 c2 c3 c4 c4a c5 ⊢
        refine ⟨by rw [c2, b3, a2], ⟨newl, by rw [c1, b1, a4]⟩, by omega,
          ⟨newp, by rw [c4, b2, a1], c4b, ?_⟩,
          ⟨ev1 ++ ev2 ++ ev3, [], ?_, hpre, Or.inl ⟨by simp, rfl⟩⟩⟩
        · intro p hp
          obtain ⟨-, x, y⟩ := c4a p hp
          refine ⟨by omega, y, ?_⟩
          rw [c1, b1, a4]
          exact horigin p hp
        · rw [c5, b5, a5]; simp
    · rw [hB] at b1 b2 b3 b4 b5
      simp only at b1 b2 b3 b4 b5 ⊢
      refine ⟨by rw [b3, a2], ⟨newl, by rw [b1, a4]⟩, by omega, ⟨[], by simp [b2, a1]⟩,
        ⟨ev1 ++ ev2, [], ?_, ?_, Or.inl ⟨by simp, rfl⟩⟩⟩
      · rw [b5, a5]; simp
      · intro e he
        rcases List.mem_append.mp he with he | he
        · exact a5'' e he
        · exact b5'' e he
  · rw [hA] at a1 a2 a3 a4 a5
    simp only at a1 a2 a3 a4 a5 ⊢
    exact ⟨a2, ⟨newl, a4⟩, by omega, ⟨[], by simp [a1]⟩,
      ⟨ev1, [], by simp [a5], a5'', Or.inl ⟨by simp, rfl⟩⟩⟩

/-- The batch `load_so` on a list with a path that does not open: the call throws the load
error of such a path out of the first transform, before any factory is resolved. -/
theorem load_so_load_error (env : Env) (s : runtime_impl) (ps : List String)
    (h : ∃ p ∈ ps, env.loadable p = false) :
    ∃ p ∈ ps, env.loadable p = false ∧
      (load_so env s ps).thrown = some (.load_error p) ∧
      (load_so env s ps).rt.plugins = s.plugins ∧
      ∃ ev, (load_so env s ps).rt.trace = s.trace ++ ev ∧ ∀ e ∈ ev, ∃ q, e = Event.dlopen q := by
  obtain ⟨a1, -, -, -, ⟨ev1, a5, a5', -⟩, a6, a7⟩ := load_libs_spec env ps s
  unfold load_so
  rcases hA : load_libs env ps s with ⟨s1, _ | e⟩
  · rw [hA] at a6
    obtain ⟨p, hp, hp'⟩ := h
    have := a6 rfl p hp
    rw [hp'] at this
    exact absurd this (by decide)
  · rw [hA] at a1 a5 a7
    simp only at a1 a5 a7 ⊢
    obtain ⟨p, hp, hp', he⟩ := a7 (by simp)
    exact ⟨p, hp, hp', he, a1, ev1, a5, a5'⟩

/-- The batch `load_so` returns only if every path of the list opens, exports
`this_plugin_factory` and builds. -/
theorem load_so_returns (env : Env) (s : runtime_impl) (ps : List String)
    (h : (load_so env s ps).thrown = none) :
    ∀ p ∈ ps, env.loadable p = true ∧ env.exports p "this_plugin_factory" = true ∧
      env.builds p = true := by
  obtain ⟨-, -, -, ⟨newl, a4, a4'⟩, -, a6, -⟩ := load_libs_spec env ps s
  unfold load_so at h
  rcases hA : load_libs env ps s with ⟨s1, _ | e⟩
  · rw [hA] at h a4 a4' a6
    simp only at h a4 a4' a6
    obtain ⟨-, -, -, -, -, b6, -⟩ := get_factories_spec env s1.libs s1
    rcases hB : get_factories env s1.libs s1 with ⟨⟨s2, _ | e⟩, fs⟩
    · rw [hB] at h b6
      simp only at h b6
      obtain ⟨b6a, b6b⟩ := b6 trivial
      obtain ⟨-, -, -, -, -, c6, -⟩ := build_plugins_spec fs s2
      rcases hC : build_plugins fs s2 with ⟨s3, _ | e⟩
      · rw [hC] at c6
        simp only at c6
        intro p hp
        have hp' : p ∈ newl.map dynamic_lib.path := by rw [a4' trivial]; exact hp
        obtain ⟨l, hl, rfl⟩ := List.mem_map.mp hp'
        have hl' : l ∈ s1.libs := by rw [a4]; exact List.mem_append_right _ hl
        refine ⟨a6 trivial _ hp, b6b l hl', ?_⟩
        have := c6 trivial ⟨some l, "this_plugin_factory", env.builds l.path⟩
          (by rw [b6a]; exact List.mem_map.mpr ⟨l, hl', rfl⟩)
        simpa using this
      · rw [hC] at h
        simp at h
    · rw [hB] at h
      simp at h
  · rw [hA] at h
    simp at h

/-- The member `load_plugin_factory`: on return one instance with a fresh identifier has
been appended and started; on a throw nothing but the trace has moved. -/
theorem load_plugin_factory_spec (s : runtime_impl) (f : plugin_factory) :
    (f.builds = true ∧
      load_plugin_factory s f =
        ⟨{ s with trace := s.trace ++ [.construct f (some pb)] ++ [.start ⟨s.next_id, f⟩],
                  plugins := s.plugins ++ [⟨s.next_id, f⟩], next_id := s.next_id + 1 }, none⟩) ∨
    (f.builds = false ∧
      load_plugin_factory s f =
        ⟨{ s with trace := s.trace ++ [.construct f (some pb)] }, some (.construct_error f)⟩) := by
  cases hf : f.builds <;> simp [load_plugin_factory, plugin_factory.call, hf]

/-! ## One call -/

/-- The member `wait()` returns the object as it is, when it returns. -/
theorem wait_spec (polls : Nat) (s : runtime_impl) : (wait polls s).getD s = s := by
  induction polls with
  | zero => rfl
  | succ n ih =>
    cases h : s.terminate <;> simp [wait, h, ih]

/-- The member `wait()` returns as soon as the flag is set, and never before. -/
theorem wait_returns (polls : Nat) (s : runtime_impl) :
    (wait (polls + 1) s).isSome = s.terminate := by
  induction polls with
  | zero => cases h : s.terminate <;> simp [wait, h]
  | succ n ih =>
    cases h : s.terminate
    · rw [h] at ih
      rw [wait]
      simpa [h] using ih
    · simp [wait, h]

/-- The single-path `load_so`, case by case: the path does not open; it opens and does not
export `this_plugin_factory`; the factory throws; the factory returns an instance, which is
appended and started, and the image is appended to `libs`. -/
theorem load_so_view_spec (env : Env) (s : runtime_impl) (so : String) :
    (env.loadable so = false ∧
      load_so_view env s so =
        ⟨{ s with trace := s.trace ++ [.dlopen so] }, some (.load_error so)⟩) ∨
    (env.loadable so = true ∧ env.exports so "this_plugin_factory" = false ∧
      load_so_view env s so =
        ⟨{ s with trace := s.trace ++ [.dlopen so, .dlsym ⟨s.next_handle, so⟩ "this_plugin_factory"],
                  next_handle := s.next_handle + 1 },
          some (.symbol_error so "this_plugin_factory")⟩) ∨
    (env.loadable so = true ∧ env.exports so "this_plugin_factory" = true ∧
      env.builds so = false ∧
      load_so_view env s so =
        ⟨{ s with trace := s.trace ++ [.dlopen so, .dlsym ⟨s.next_handle, so⟩ "this_plugin_factory",
                    .construct ⟨some ⟨s.next_handle, so⟩, "this_plugin_factory", false⟩ (some pb)],
                  next_handle := s.next_handle + 1 },
          some (.construct_error ⟨some ⟨s.next_handle, so⟩, "this_plugin_factory", false⟩)⟩) ∨
    (env.loadable so = true ∧ env.exports so "this_plugin_factory" = true ∧
      env.builds so = true ∧
      load_so_view env s so =
        ⟨{ s with trace := s.trace ++ [.dlopen so, .dlsym ⟨s.next_handle, so⟩ "this_plugin_factory",
                    .construct ⟨some ⟨s.next_handle, so⟩, "this_plugin_factory", true⟩ (some pb),
                    .start ⟨s.next_id, ⟨some ⟨s.next_handle, so⟩, "this_plugin_factory", true⟩⟩],
                  plugins := s.plugins ++
                    [⟨s.next_id, ⟨some ⟨s.next_handle, so⟩, "this_plugin_factory", true⟩⟩],
                  libs := s.libs ++ [⟨s.next_handle, so⟩],
                  next_handle := s.next_handle + 1, next_id := s.next_id + 1 }, none⟩) := by
  cases h1 : env.loadable so
  · simp [load_so_view, dynamic_lib.create, h1]
  · cases h2 : env.exports so "this_plugin_factory"
    · simp [load_so_view, dynamic_lib.create, dynamic_lib.get, h1, h2]
    · cases h3 : env.builds so <;>
        simp [load_so_view, dynamic_lib.create, dynamic_lib.get, load_plugin_factory,
          plugin_factory.call, h1, h2, h3]

/-- No `stop()` event among load steps and `start()` events. -/
theorem stop_count_load (p : plugin) (pre : List Event) (ps : List plugin)
    (hpre : ∀ e ∈ pre, e.is_load_step = true) :
    stop_count p (pre ++ ps.map Event.start) = 0 := by
  unfold stop_count
  rw [List.count_eq_zero]
  intro hmem
  rcases List.mem_append.mp hmem with h | h
  · have := hpre _ h
    simp [Event.is_load_step] at this
  · simp at h

/-- The frame of every call: `libs` and `plugins` only grow at the end; the new instances
are distinct, carry fresh identifiers and, when made by a factory resolved from an image,
that image is in `libs`; the flag is set by `stop` and by no other call; `stop()` events are
emitted by `stop` only, one per element of `plugins`. -/
theorem apply_frame (env : Env) (s : runtime_impl) (op : Op) :
    (∃ newl, (op.apply env s).rt.libs = s.libs ++ newl) ∧
    s.next_id ≤ (op.apply env s).rt.next_id ∧
    (∃ newp, (op.apply env s).rt.plugins = s.plugins ++ newp ∧ newp.Nodup ∧
      ∀ p ∈ newp, s.next_id ≤ p.id ∧ p.id < (op.apply env s).rt.next_id ∧
        ∀ l, p.factory.origin = some l → l ∈ (op.apply env s).rt.libs) ∧
    (op.apply env s).rt.terminate = (s.terminate || decide (op = Op.stop)) ∧
    (∃ ev, (op.apply env s).rt.trace = s.trace ++ ev ∧
      ∀ p, stop_count p ev = if op = Op.stop then s.plugins.count p else 0) := by
  cases op with
  | load_so ps =>
    obtain ⟨h1, h2, h3, ⟨newp, h4, h4a, h4b⟩, ⟨pre, starts, h5, h5a, h5b⟩⟩ :=
      load_so_frame env s ps
    refine ⟨h2, h3, ⟨newp, h4, h4a, ?_⟩, by simpa [Op.apply] using h1,
      ⟨pre ++ starts, by simpa [Op.apply] using h5, ?_⟩⟩
    · intro p hp
      obtain ⟨x, y, l, hl, hl'⟩ := h4b p hp
      refine ⟨x, y, ?_⟩
      intro l' hl''
      rw [hl'] at hl''
      cases hl''
      exact hl
    · intro p
      simp only [reduceCtorEq, if_false]
      rcases h5b with ⟨-, rfl⟩ | ⟨-, hs, -⟩
      · simpa using stop_count_load p pre [] h5a
      · rw [hs]
        exact stop_count_load p pre _ h5a
  | load_so_view so =>
    simp only [Op.apply, reduceCtorEq, decide_False, Bool.or_false, if_false]
    rcases load_so_view_spec env s so with ⟨-, h⟩ | ⟨-, -, h⟩ | ⟨-, -, -, h⟩ | ⟨-, -, -, h⟩
    · rw [h]
      refine ⟨⟨[], by simp⟩, by simp, ⟨[], by simp⟩, by simp, ⟨[.dlopen so], by simp, ?_⟩⟩
      intro p; simp [stop_count]
    · rw [h]
      refine ⟨⟨[], by simp⟩, by simp, ⟨[], by simp⟩, by simp,
        ⟨[.dlopen so, .dlsym ⟨s.next_handle, so⟩ "this_plugin_factory"], by simp, ?_⟩⟩
      intro p; simp [stop_count]
    · rw [h]
      refine ⟨⟨[], by simp⟩, by simp, ⟨[], by simp⟩, by simp,
        ⟨[.dlopen so, .dlsym ⟨s.next_handle, so⟩ "this_plugin_factory",
          .construct ⟨some ⟨s.next_handle, so⟩, "this_plugin_factory", false⟩ (some pb)],
          by simp, ?_⟩⟩
      intro p; simp [stop_count]
    · rw [h]
      refine ⟨⟨[⟨s.next_handle, so⟩], by simp⟩, by simp,
        ⟨[⟨s.next_id, ⟨some ⟨s.next_handle, so⟩, "this_plugin_factory", true⟩⟩],
          by simp, by simp, ?_⟩, by simp,
        ⟨[.dlopen so, .dlsym ⟨s.next_handle, so⟩ "this_plugin_factory",
          .construct ⟨some ⟨s.next_handle, so⟩, "this_plugin_factory", true⟩ (some pb),
          .start ⟨s.next_id, ⟨some ⟨s.next_handle, so⟩, "this_plugin_factory", true⟩⟩],
          by simp, ?_⟩⟩
      · intro p hp
        rw [List.mem_singleton] at hp
        subst hp
        simp
      · intro p; simp [stop_count]
  | load_plugin_factory symbol builds =>
    simp only [Op.apply, reduceCtorEq, decide_False, Bool.or_false, if_false]
    rcases load_plugin_factory_spec s ⟨none, symbol, builds⟩ with ⟨-, h⟩ | ⟨-, h⟩
    · rw [h]
      refine ⟨⟨[], by simp⟩, by simp, ⟨[⟨s.next_id, ⟨none, symbol, builds⟩⟩], by simp, by simp,
        ?_⟩, by simp, ⟨[.construct ⟨none, symbol, builds⟩ (some pb),
          .start ⟨s.next_id, ⟨none, symbol, builds⟩⟩], by simp, ?_⟩⟩
      · intro p hp
        rw [List.mem_singleton] at hp
        subst hp
        simp
      · intro p; simp [stop_count]
    · rw [h]
      refine ⟨⟨[], by simp⟩, by simp, ⟨[], by simp⟩, by simp,
        ⟨[.construct ⟨none, symbol, builds⟩ (some pb)], by simp, ?_⟩⟩
      intro p; simp [stop_count]
  | wait polls =>
    simp only [Op.apply, wait_spec, reduceCtorEq, decide_False, Bool.or_false, if_false]
    exact ⟨⟨[], by simp⟩, le_refl _, ⟨[], by simp⟩, trivial, ⟨[], by simp, by simp [stop_count]⟩⟩
  | stop =>
    simp only [Op.apply, runtime_impl.stop, decide_True, Bool.or_true, if_true]
    refine ⟨⟨[], by simp⟩, le_refl _, ⟨[], by simp⟩, trivial,
      ⟨[.switchboard_stop] ++ s.plugins.map Event.stop ++ [.terminate_store], by simp, ?_⟩⟩
    intro p
    simp only [stop_count, List.count_append]
    rw [List.count_map_of_injective _ _ (fun a b h => by cases h; rfl)]
    simp

/-! ## Sequences of calls -/

theorem run_nil (env : Env) (s : runtime_impl) : run env s [] = s := rfl

theorem run_cons (env : Env) (s : runtime_impl) (op : Op) (ops : List Op) :
    run env s (op :: ops) = run env (op.apply env s).rt ops := rfl

theorem stop_count_append (p : plugin) (a b : List Event) :
    stop_count p (a ++ b) = stop_count p a + stop_count p b := by
  simp [stop_count, List.count_append]

theorem wf_init : wf init := by
  simp [wf, init]

/-- Every call keeps the state well formed. -/
theorem wf_apply (env : Env) (s : runtime_impl) (op : Op) (h : wf s) :
    wf (op.apply env s).rt := by
  obtain ⟨⟨newl, h1⟩, h2, ⟨newp, h3, h3a, h3b⟩, -, -⟩ := apply_frame env s op
  obtain ⟨w1, w2, w3⟩ := h
  refine ⟨?_, ?_, ?_⟩
  · intro p hp
    rw [h3] at hp
    rcases List.mem_append.mp hp with hp | hp
    · exact lt_of_lt_of_le (w1 p hp) h2
    · exact (h3b p hp).2.1
  · rw [h3]
    refine List.Nodup.append w2 h3a ?_
    intro p hp hp'
    have := w1 p hp
    have := (h3b p hp').1
    omega
  · intro p hp l hl
    rw [h3] at hp
    rcases List.mem_append.mp hp with hp | hp
    · rw [h1]
      exact List.mem_append_left _ (w3 p hp l hl)
    · exact (h3b p hp).2.2 l hl

/-- Every state reached by a sequence of calls from a well-formed state is well formed. -/
theorem wf_run (env : Env) (ops : List Op) (s : runtime_impl) (h : wf s) :
    wf (run env s ops) := by
  induction ops generalizing s with
  | nil => exact h
  | cons op ops ih => exact ih _ (wf_apply env s op h)

/-- The number of `stop()` calls received by an instance is bounded by the number of calls
of the manager's `stop`. -/
theorem stop_count_run_le (env : Env) (ops : List Op) (s : runtime_impl) (h : wf s)
    (p : plugin) :
    stop_count p (run env s ops).trace ≤ stop_count p s.trace + ops.count Op.stop := by
  induction ops generalizing s with
  | nil => simp [run_nil]
  | cons op ops ih =>
    rw [run_cons]
    refine le_trans (ih _ (wf_apply env s op h)) ?_
    obtain ⟨-, -, -, -, ⟨ev, he, hev⟩⟩ := apply_frame env s op
    rw [he, stop_count_append, hev p]
    by_cases hop : op = Op.stop
    · subst hop
      have := List.nodup_iff_count_le_one.mp h.2.1 p
      simp only [if_true, List.count_cons_self]
      omega
    · simp only [hop, if_false]
      rw [List.count_cons_of_ne (fun e => hop e.symm)]
      omega

/-- Images are never removed by a sequence of calls: `libs` before is an initial segment
of `libs` after. -/
theorem libs_prefix_run (env : Env) (ops : List Op) (s : runtime_impl) :
    s.libs <+: (run env s ops).libs := by
  induction ops generalizing s with
  | nil => exact List.prefix_refl _
  | cons op ops ih =>
    rw [run_cons]
    obtain ⟨⟨newl, h⟩, -⟩ := apply_frame env s op
    exact List.IsPrefix.trans ⟨newl, h.symm⟩ (ih _)

/-- The destructor of `plugins` ends normally exactly when every element has received
`stop()`. -/
theorem destroy_plugins_normal_iff (ps : List plugin) (t : List Event) :
    destroy_plugins ps t = Exit.normal ↔ ∀ p ∈ ps, 0 < stop_count p t := by
  induction ps with
  | nil => simp [destroy_plugins]
  | cons p ps ih =>
    by_cases h : stop_count p t = 0
    · simp [destroy_plugins, plugin.destructor, h]
    · simp [destroy_plugins, plugin.destructor, h, ih, Nat.pos_of_ne_zero h]

/-- The destruction ends normally exactly when the flag is set and every held instance has
received `stop()`. -/
theorem destruction_normal_iff (s : runtime_impl) :
    destruction s = Exit.normal ↔
      s.terminate = true ∧ ∀ p ∈ s.plugins, 0 < stop_count p s.trace := by
  cases h : s.terminate
  · simp [destruction, destructor, h]
  · simp [destruction, destructor, h, destroy_plugins_normal_iff]

/-! ## The lifecycle properties -/

/-- C1: `stop()` emits, after what was already in the trace, exactly the switchboard stop,
then one `stop()` per element of `plugins` in order, then the store to the termination
flag; each held instance is stopped as many times as it occurs in `plugins`, that is once
when the held instances are distinct; the flag is then set, and `plugins` and `libs` are
as before. -/
theorem stop_sequence (s : runtime_impl) :
    (stop s).trace =
      s.trace ++
        ([Event.switchboard_stop] ++ s.plugins.map Event.stop ++ [Event.terminate_store]) ∧
    (∀ p, stop_count p
        ([Event.switchboard_stop] ++ s.plugins.map Event.stop ++ [Event.terminate_store])
      = s.plugins.count p) ∧
    (s.plugins.Nodup → ∀ p ∈ s.plugins, stop_count p
        ([Event.switchboard_stop] ++ s.plugins.map Event.stop ++ [Event.terminate_store]) = 1) ∧
    (stop s).terminate = true ∧
    (stop s).plugins = s.plugins ∧
    (stop s).libs = s.libs := by
  have hcount : ∀ p, stop_count p
      ([Event.switchboard_stop] ++ s.plugins.map Event.stop ++ [Event.terminate_store])
        = s.plugins.count p := by
    intro p
    simp only [stop_count, List.count_append]
    rw [List.count_map_of_injective _ _ (fun a b h => by cases h; rfl)]
    simp
  refine ⟨by simp [runtime_impl.stop], hcount, ?_, rfl, rfl, rfl⟩
  intro hnd p hp
  rw [hcount p]
  exact List.count_eq_one_of_mem hnd hp

/-- C2 (the code at the failing input): after `load_so({"a.so"})` and then
`load_so({"b.so"})`, both returning, the instance built from `a.so` by the first call is
held in `plugins` and has received `start()` twice. -/
theorem load_so_twice_starts_twice :
    all_succeed env_ok init [Op.load_so ["a.so"], Op.load_so ["b.so"]] = true ∧
    (⟨0, ⟨some ⟨0, "a.so"⟩, "this_plugin_factory", true⟩⟩ : plugin) ∈
      (run env_ok init [Op.load_so ["a.so"], Op.load_so ["b.so"]]).plugins ∧
    start_count ⟨0, ⟨some ⟨0, "a.so"⟩, "this_plugin_factory", true⟩⟩
      (run env_ok init [Op.load_so ["a.so"], Op.load_so ["b.so"]]).trace = 2 := by
  decide

/-- C3: the events emitted by the batch `load_so` are load steps (open, resolve, construct)
followed by `start()` calls and nothing else, so every open, resolution and construction of
the call precedes its first `start()`.  When the call returns, the load steps are one open
per path, one resolution per image of `libs` and one construction per factory, and the
`start()` calls those of the final loop.  When the call throws, no `start()` is emitted;
and it throws whenever some path does not open, does not export the factory or does not
build. -/
theorem load_so_builds_before_start (env : Env) (s : runtime_impl) (ps : List String) :
    ∃ pre starts, (load_so env s ps).rt.trace = s.trace ++ pre ++ starts ∧
      (∀ e ∈ pre, e.is_load_step = true ∧ e.is_start = false) ∧
      (∀ e ∈ starts, e.is_start = true) ∧
      ((load_so env s ps).thrown = none →
        starts = (load_so env s ps).rt.plugins.map Event.start ∧
        pre = ps.map Event.dlopen ++
          (load_so env s ps).rt.libs.map (fun l => Event.dlsym l "this_plugin_factory") ++
          (load_so env s ps).rt.libs.map (fun l =>
            Event.construct ⟨some l, "this_plugin_factory", env.builds l.path⟩ (some pb))) ∧
      ((load_so env s ps).thrown ≠ none → starts = []) ∧
      ((∃ p ∈ ps, env.loadable p = false ∨ env.exports p "this_plugin_factory" = false ∨
          env.builds p = false) →
        (load_so env s ps).thrown ≠ none ∧ starts = []) := by
  obtain ⟨-, -, -, -, ⟨pre, starts, h5, h5a, h5b⟩⟩ := load_so_frame env s ps
  have hthrow : (load_so env s ps).thrown ≠ none → starts = [] := by
    intro h
    rcases h5b with ⟨-, hs⟩ | ⟨hn, -⟩
    · exact hs
    · exact absurd hn h
  refine ⟨pre, starts, h5, ?_, ?_, ?_, hthrow, ?_⟩
  · intro e he
    have := h5a e he
    refine ⟨this, ?_⟩
    cases e <;> simp [Event.is_load_step] at this <;> rfl
  · intro e he
    rcases h5b with ⟨-, hs⟩ | ⟨-, hs, -⟩
    · rw [hs] at he; simp at he
    · rw [hs] at he
      obtain ⟨p, -, rfl⟩ := List.mem_map.mp he
      rfl
  · intro h
    rcases h5b with ⟨hn, -⟩ | ⟨-, hs, hp⟩
    · exact absurd h hn
    · exact ⟨hs, hp⟩
  · rintro ⟨p, hp, hbad⟩
    have hne : (load_so env s ps).thrown ≠ none := by
      intro hnone
      obtain ⟨x, y, z⟩ := load_so_returns env s ps hnone p hp
      rcases hbad with h | h | h
      · rw [x] at h; exact absurd h (by decide)
      · rw [y] at h; exact absurd h (by decide)
      · rw [z] at h; exact absurd h (by decide)
    exact ⟨hne, hthrow hne⟩

/-- Witness of C3 on a list whose second path does not open: the call throws and the trace
holds the two opens and no `start()`. -/
theorem load_so_builds_before_start_witness :
    ∃ pre starts, (load_so env_a init ["a.so", "b.so"]).rt.trace = init.trace ++ pre ++ starts ∧
      (∀ e ∈ pre, e.is_load_step = true ∧ e.is_start = false) ∧
      (∀ e ∈ starts, e.is_start = true) ∧
      (load_so env_a init ["a.so", "b.so"]).thrown ≠ none ∧ starts = [] := by
  obtain ⟨pre, starts, h1, h2, h3, -, -, h6⟩ :=
    load_so_builds_before_start env_a init ["a.so", "b.so"]
  exact ⟨pre, starts, h1, h2, h3, h6 ⟨"b.so", by decide, Or.inl (by decide)⟩⟩

/-- C4: after every sequence of calls, the destruction of the runtime aborts if some held
plugin instance never received `stop()`, and it completes normally only when every held
instance has received `stop()`; it completes normally exactly when the termination flag is
set and every held instance has received `stop()`. -/
theorem destruction_aborts_unless_all_stopped (env : Env) (ops : List Op) :
    ((∃ p ∈ (run env init ops).plugins, stop_count p (run env init ops).trace = 0) →
      destruction (run env init ops) = Exit.abort) ∧
    (destruction (run env init ops) = Exit.normal →
      ∀ p ∈ (run env init ops).plugins, 0 < stop_count p (run env init ops).trace) ∧
    (destruction (run env init ops) = Exit.normal ↔
      (run env init ops).terminate = true ∧
      ∀ p ∈ (run env init ops).plugins, 0 < stop_count p (run env init ops).trace) := by
  have key := destruction_normal_iff (run env init ops)
  refine ⟨?_, fun h => (key.mp h).2, key⟩
  rintro ⟨p, hp, h0⟩
  cases hd : destruction (run env init ops)
  · have := (key.mp hd).2 p hp
    omega
  · rfl

/-- Witness of C4: a plugin attached after `stop()` never receives `stop()` and the
destruction aborts, as it does when `stop()` is never called; after an attach followed by
`stop()` the destruction completes normally. -/
theorem destruction_aborts_unless_all_stopped_witness :
    destruction (run env_ok init [Op.stop, Op.load_plugin_factory "f" true]) = Exit.abort ∧
    destruction (run env_ok init [Op.load_plugin_factory "f" true]) = Exit.abort ∧
    destruction (run env_ok init [Op.load_plugin_factory "f" true, Op.stop]) = Exit.normal ∧
    stop_count ⟨0, ⟨none, "f", true⟩⟩
      (run env_ok init [Op.load_plugin_factory "f" true, Op.stop]).trace = 1 :=
  ⟨(destruction_aborts_unless_all_stopped env_ok
      [Op.stop, Op.load_plugin_factory "f" true]).1 ⟨⟨0, ⟨none, "f", true⟩⟩, by decide, by decide⟩,
    (destruction_aborts_unless_all_stopped env_ok
      [Op.load_plugin_factory "f" true]).1 ⟨⟨0, ⟨none, "f", true⟩⟩, by decide, by decide⟩,
    (destruction_aborts_unless_all_stopped env_ok
      [Op.load_plugin_factory "f" true, Op.stop]).2.2.mpr ⟨by decide, by decide⟩,
    by decide⟩

/-- C6 (counterexample): after `load_plugin_factory(f)` and two calls of `stop()`, the
instance built by `f` has received `stop()` twice. -/
theorem stop_twice_stops_twice :
    (⟨0, ⟨none, "f", true⟩⟩ : plugin) ∈
      (run env_ok init [Op.load_plugin_factory "f" true, Op.stop, Op.stop]).plugins ∧
    stop_count ⟨0, ⟨none, "f", true⟩⟩
      (run env_ok init [Op.load_plugin_factory "f" true, Op.stop, Op.stop]).trace = 2 := by
  decide

/-- C6 (amended): after every sequence of calls, each plugin instance has received `stop()`
at most as many times as the manager's `stop` was called; at most once, then, when `stop`
was called at most once. -/
theorem stop_count_le_stops (env : Env) (ops : List Op) (p : plugin) :
    stop_count p (run env init ops).trace ≤ ops.count Op.stop ∧
    (ops.count Op.stop ≤ 1 → stop_count p (run env init ops).trace ≤ 1) := by
  have h := stop_count_run_le env ops init wf_init p
  have h0 : stop_count p init.trace = 0 := rfl
  rw [h0, Nat.zero_add] at h
  exact ⟨h, fun h1 => le_trans h h1⟩

/-- C7: a load request with a path that does not open, in the single-path form or in the
batch form, throws the load error of such a path, leaves `plugins` as it was and emits no
`start()`. -/
theorem load_error_adds_no_plugin (env : Env) (s : runtime_impl) :
    (∀ so, env.loadable so = false →
      (load_so_view env s so).thrown = some (.load_error so) ∧
      (load_so_view env s so).rt.plugins = s.plugins ∧
      ∃ ev, (load_so_view env s so).rt.trace = s.trace ++ ev ∧ ∀ e ∈ ev, e.is_start = false) ∧
    (∀ ps, (∃ p ∈ ps, env.loadable p = false) →
      ∃ p ∈ ps, env.loadable p = false ∧
        (load_so env s ps).thrown = some (.load_error p) ∧
        (load_so env s ps).rt.plugins = s.plugins ∧
        ∃ ev, (load_so env s ps).rt.trace = s.trace ++ ev ∧ ∀ e ∈ ev, e.is_start = false) := by
  constructor
  · intro so hso
    rcases load_so_view_spec env s so with ⟨-, h⟩ | ⟨h, -⟩ | ⟨h, -⟩ | ⟨h, -⟩
    · rw [h]
      exact ⟨rfl, rfl, [.dlopen so], rfl, by simp [Event.is_start]⟩
    all_goals (rw [hso] at h; exact absurd h (by decide))
  · intro ps hps
    obtain ⟨p, hp, hp', ht, hpl, ev, hev, hev'⟩ := load_so_load_error env s ps hps
    refine ⟨p, hp, hp', ht, hpl, ev, hev, ?_⟩
    intro e he
    obtain ⟨q, rfl⟩ := hev' e he
    rfl

/-- Witness of C7: `"b.so"` does not open, alone and after `"a.so"` in a batch. -/
theorem load_error_adds_no_plugin_witness :
    (load_so_view env_a init "b.so").thrown = some (.load_error "b.so") ∧
    (load_so_view env_a init "b.so").rt.plugins = [] ∧
    ∃ p ∈ ["a.so", "b.so"], env_a.loadable p = false ∧
      (load_so env_a init ["a.so", "b.so"]).thrown = some (.load_error p) ∧
      (load_so env_a init ["a.so", "b.so"]).rt.plugins = [] := by
  obtain ⟨h1, h2⟩ := load_error_adds_no_plugin env_a init
  obtain ⟨a, b, -⟩ := h1 "b.so" (by decide)
  obtain ⟨p, hp, c, d, e, -⟩ := h2 ["a.so", "b.so"] ⟨"b.so", by decide, by decide⟩
  exact ⟨a, b, p, hp, c, d, e⟩

/-- C8: no call and no sequence of calls removes an image, `libs` before being an initial
segment of `libs` after; and in every state reached from the constructed runtime by a
sequence of calls, throwing ones included, every held instance made by a factory resolved
from an image has that image in `libs`. -/
theorem images_outlive_plugins :
    (∀ (env : Env) (s : runtime_impl) (op : Op), s.libs <+: (op.apply env s).rt.libs) ∧
    (∀ (env : Env) (s : runtime_impl) (ops : List Op), s.libs <+: (run env s ops).libs) ∧
    (∀ (env : Env) (ops : List Op), ∀ p ∈ (run env init ops).plugins,
      ∀ l, p.factory.origin = some l → l ∈ (run env init ops).libs) := by
  refine ⟨?_, fun env s ops => libs_prefix_run env ops s, ?_⟩
  · intro env s op
    obtain ⟨⟨newl, h⟩, -⟩ := apply_frame env s op
    exact ⟨newl, h.symm⟩
  · intro env ops
    exact (wf_run env ops init wf_init).2.2

/-- C9 (counterexample): after `illixrrt_init`, `illixrrt_load_plugin("a.so")` returns with
the new instance in `plugins` and no `start()` received by it, and so does
`illixrrt_attach_plugin(f)`. -/
theorem illixrrt_load_plugin_does_not_start :
    (illixrrt_load_plugin env_ok (illixrrt_init main_state.init).1 "a.so").thrown = none ∧
    (⟨0, ⟨some ⟨0, "a.so"⟩, "plugin_main", true⟩⟩ : plugin) ∈
      (illixrrt_load_plugin env_ok (illixrrt_init main_state.init).1 "a.so").rt.plugins ∧
    start_count ⟨0, ⟨some ⟨0, "a.so"⟩, "plugin_main", true⟩⟩
      (illixrrt_load_plugin env_ok (illixrrt_init main_state.init).1 "a.so").rt.trace = 0 ∧
    (illixrrt_attach_plugin (illixrrt_init main_state.init).1 ⟨none, "f", true⟩).thrown = none ∧
    (⟨0, ⟨none, "f", true⟩⟩ : plugin) ∈
      (illixrrt_attach_plugin (illixrrt_init main_state.init).1 ⟨none, "f", true⟩).rt.plugins ∧
    start_count ⟨0, ⟨none, "f", true⟩⟩
      (illixrrt_attach_plugin (illixrrt_init main_state.init).1 ⟨none, "f", true⟩).rt.trace
      = 0 := by
  decide

/-- C9 (amended): `illixrrt_load_plugin(path)` with a path that opens, exports `plugin_main`
and builds, and `illixrrt_attach_plugin(f)` with a factory that builds, call the factory
with the registry handle `pb.get()` and append the new instance to `plugins` (and the image
to `libs`) before returning; the events of the call are the open, the resolution and the
construction, and no `start()`. -/
theorem illixrrt_load_and_attach (env : Env) (s : main_state) :
    (∀ path, env.loadable path = true → env.exports path "plugin_main" = true →
      env.builds path = true →
      illixrrt_load_plugin env s path =
        ⟨{ s with
            trace := s.trace ++ [.dlopen path, .dlsym ⟨s.next_handle, path⟩ "plugin_main",
              .construct ⟨some ⟨s.next_handle, path⟩, "plugin_main", true⟩ s.pb],
            plugins := s.plugins ++ [⟨s.next_id, ⟨some ⟨s.next_handle, path⟩, "plugin_main", true⟩⟩],
            libs := s.libs ++ [⟨s.next_handle, path⟩],
            next_handle := s.next_handle + 1, next_id := s.next_id + 1 }, none⟩) ∧
    (∀ f : plugin_factory, f.builds = true →
      illixrrt_attach_plugin s f =
        ⟨{ s with trace := s.trace ++ [.construct f s.pb],
                  plugins := s.plugins ++ [⟨s.next_id, f⟩],
                  next_id := s.next_id + 1 }, none⟩) := by
  constructor
  · intro path h1 h2 h3
    simp [illixrrt_load_plugin, dynamic_lib.create, dynamic_lib.get, plugin_factory.call,
      h1, h2, h3]
  · intro f hf
    simp [illixrrt_attach_plugin, plugin_factory.call, hf]

/-- Witness of C9 (amended): `"a.so"` loaded and `f` attached after `illixrrt_init`. -/
theorem illixrrt_load_and_attach_witness :
    (illixrrt_load_plugin env_ok (illixrrt_init main_state.init).1 "a.so").rt.trace =
      [.dlopen "a.so", .dlsym ⟨0, "a.so"⟩ "plugin_main",
        .construct ⟨some ⟨0, "a.so"⟩, "plugin_main", true⟩
          (some ["switchboard", "xlib_gl_extended_window"])] ∧
    (illixrrt_attach_plugin (illixrrt_init main_state.init).1 ⟨none, "f", true⟩).rt.plugins =
      [⟨0, ⟨none, "f", true⟩⟩] := by
  obtain ⟨h1, h2⟩ := illixrrt_load_and_attach env_ok (illixrrt_init main_state.init).1
  rw [h1 "a.so" rfl rfl rfl, h2 ⟨none, "f", true⟩ rfl]
  exact ⟨rfl, rfl⟩

/-- C10 (the code at the failing input): on a runtime that holds the image and the plugin of
an earlier `load_so({"a.so"})`, `load_so({"b.so"})` returns having appended one image and
two instances, the first of them built anew from the image of `a.so`. -/
theorem load_so_rebuilds_earlier_images :
    (run env_ok init [Op.load_so ["a.so"]]).libs = [⟨0, "a.so"⟩] ∧
    (run env_ok init [Op.load_so ["a.so"]]).plugins =
      [⟨0, ⟨some ⟨0, "a.so"⟩, "this_plugin_factory", true⟩⟩] ∧
    (load_so env_ok (run env_ok init [Op.load_so ["a.so"]]) ["b.so"]).thrown = none ∧
    (load_so env_ok (run env_ok init [Op.load_so ["a.so"]]) ["b.so"]).rt.libs =
      [⟨0, "a.so"⟩, ⟨1, "b.so"⟩] ∧
    (load_so env_ok (run env_ok init [Op.load_so ["a.so"]]) ["b.so"]).rt.plugins =
      [⟨0, ⟨some ⟨0, "a.so"⟩, "this_plugin_factory", true⟩⟩,
       ⟨1, ⟨some ⟨0, "a.so"⟩, "this_plugin_factory", true⟩⟩,
       ⟨2, ⟨some ⟨1, "b.so"⟩, "this_plugin_factory", true⟩⟩] := by
  decide

end ILLIXR
